import Mathlib

/-!
Verification development for the particle-visualization repository
(`src/src/App.tsx`, `src/unnamed/part_000`, `src/unnamed/part_001`).

The repository has three variants of the same browser demo:
* `src/src/App.tsx` and `src/unnamed/part_001` — "position-blend" variants:
  an image is scanned into a particle buffer (three parallel coordinate
  arrays) and every animation frame blends current positions between the
  randomized initial positions and the image-derived target positions by a
  smoothed gesture scalar `handProgress`.
* `src/unnamed/part_000` — "orbital" variant: a procedurally generated
  Saturn system (solid-body sphere plus Keplerian ring) driven by shader
  uniforms; the gesture scalar is `currentZoomRef`.

Numeric state is embedded over `ℚ` where the computations are ring
operations (so they are executable and decidable) and over `ℝ` where the
source uses `Math.sqrt`.
-/

/-- One RGBA pixel as read back from the canvas: four byte channels
`r`, `g`, `b`, `a` (the source reads `data[index] .. data[index+3]`). -/
structure Pixel where
  r : ℕ
  g : ℕ
  b : ℕ
  a : ℕ
deriving DecidableEq, Repr

/-- `const isNotWhite = (r + g + b) < 700;` from `src/src/App.tsx`. -/
def isNotWhite (p : Pixel) : Bool := p.r + p.g + p.b < 700

/-- `const isVisible = alpha > 50;` from `src/src/App.tsx`. -/
def isVisibleAlpha (p : Pixel) : Bool := 50 < p.a

/-- `const isDarkPixel = (r + g + b) < 380;` from `src/unnamed/part_001`. -/
def isDarkPixel (p : Pixel) : Bool := p.r + p.g + p.b < 380

/-- `const isNotTransparent = alpha > 100;` from `src/unnamed/part_001`. -/
def isNotTransparent (p : Pixel) : Bool := 100 < p.a

/-- The qualifying test of `src/src/App.tsx`: `if (isVisible && isNotWhite)`. -/
def mainVisible (p : Pixel) : Bool := isVisibleAlpha p && isNotWhite p

/-- The qualifying test of `src/unnamed/part_001`:
`if (isNotTransparent && isDarkPixel)`. -/
def part001Visible (p : Pixel) : Bool := isNotTransparent p && isDarkPixel p

/-- The common shape of both qualifying tests, with the alpha threshold `t`
exposed as a parameter: `alpha > t && colorPred(pixel)`. With
`t = 50, colorPred = isNotWhite` this is `mainVisible`; with
`t = 100, colorPred = isDarkPixel` it is `part001Visible`. -/
def visibleAt (colorPred : Pixel → Bool) (t : ℕ) (p : Pixel) : Bool :=
  decide (t < p.a) && colorPred p

/-- The pixel scan order of `createParticlesFromImage`: `y` runs over the
rows (outer loop), `x` over the columns (inner loop). -/
def scanCoords (width height : ℕ) : List (ℕ × ℕ) :=
  (List.range height).flatMap (fun y => (List.range width).map (fun x => (x, y)))

/-- The pixels that pass the visibility test, in scan order. -/
def qualifyingPixels (vis : Pixel → Bool) (width height : ℕ)
    (px : ℕ → ℕ → Pixel) : List (ℕ × ℕ) :=
  (scanCoords width height).filter (fun c => vis (px c.1 c.2))

/-- The three values pushed onto `targetPositions` for a qualifying pixel:
`tx = (x - width / 2) * 2`, `ty = -(y - height / 2) * 2`, `tz = 0`. -/
def targetTriple (width height : ℕ) (c : ℕ × ℕ) : List ℚ :=
  [((c.1 : ℚ) - (width : ℚ) / 2) * 2, -(((c.2 : ℚ) - (height : ℚ) / 2)) * 2, 0]

/-- The three values pushed onto `positions` (and again onto
`initialPositions`) for a qualifying pixel:
`(Math.random() - 0.5) * dispersionStrength * 2` per axis. The random draws
are supplied as an oracle `rand` giving the three unit samples for the pixel. -/
def randTriple (dispersion : ℚ) (rand : ℕ → ℕ → ℚ × ℚ × ℚ) (c : ℕ × ℕ) : List ℚ :=
  [((rand c.1 c.2).1 - 1/2) * dispersion * 2,
   ((rand c.1 c.2).2.1 - 1/2) * dispersion * 2,
   ((rand c.1 c.2).2.2 - 1/2) * dispersion * 2]

/-- The particle buffer built by `createParticlesFromImage`: the three
parallel flat coordinate arrays (`position`, `targetPosition`,
`initialPosition` geometry attributes). -/
structure ParticleArrays where
  positions : List ℚ
  targetPositions : List ℚ
  initialPositions : List ℚ
deriving DecidableEq, Repr

/-- `createParticlesFromImage` after the image has been rasterized: scan the
`height × width` pixel grid in row-major order, and for every pixel passing
`vis` push one `(tx, ty, 0)` triple onto `targetPositions` and one random
`(rx, ry, rz)` triple onto both `positions` and `initialPositions`. -/
def createParticlesFromImage (vis : Pixel → Bool) (width height : ℕ)
    (px : ℕ → ℕ → Pixel) (dispersion : ℚ) (rand : ℕ → ℕ → ℚ × ℚ × ℚ) :
    ParticleArrays :=
  let qs := qualifyingPixels vis width height px
  { positions := qs.flatMap (randTriple dispersion rand)
    targetPositions := qs.flatMap (targetTriple width height)
    initialPositions := qs.flatMap (randTriple dispersion rand) }

lemma flatMap_length_three {α : Type} (l : List α) (f : α → List ℚ)
    (h : ∀ a, (f a).length = 3) : (l.flatMap f).length = 3 * l.length := by
  induction l with
  | nil => simp
  | cons a t ih => simp [List.flatMap_cons, ih, h a, Nat.mul_succ, Nat.add_comm]

/-- Claim C3: for every input image, `createParticlesFromImage` emits three
coordinate arrays of equal length — each qualifying pixel contributes exactly
one `(x, y, z)` triple to each array, so every array has length
`3 * (number of qualifying pixels)`. -/
theorem particleArrays_length_eq (vis : Pixel → Bool) (width height : ℕ)
    (px : ℕ → ℕ → Pixel) (dispersion : ℚ) (rand : ℕ → ℕ → ℚ × ℚ × ℚ) :
    (createParticlesFromImage vis width height px dispersion rand).positions.length
      = 3 * (qualifyingPixels vis width height px).length ∧
    (createParticlesFromImage vis width height px dispersion rand).targetPositions.length
      = 3 * (qualifyingPixels vis width height px).length ∧
    (createParticlesFromImage vis width height px dispersion rand).initialPositions.length
      = 3 * (qualifyingPixels vis width height px).length := by
  refine ⟨?_, ?_, ?_⟩ <;>
    simp only [createParticlesFromImage] <;>
    apply flatMap_length_three <;>
    intro a <;> simp [randTriple, targetTriple]

lemma scanCoords_flatMap (w h : ℕ) (f : ℕ × ℕ → List ℚ) :
    (scanCoords w h).flatMap f
      = (List.range h).flatMap (fun y => (List.range w).flatMap (fun x => f (x, y))) := by
  simp only [scanCoords, List.flatMap_assoc, List.flatMap_map, Function.comp]

/-- Claim C5: running the converter with the dark-pixel predicate (threshold
380, alpha cutoff 100) on a 10×10 fully-opaque black image yields exactly 100
target triples — one per pixel — each equal to `((x-5)*2, -(y-5)*2, 0)`. -/
theorem black_square_targets :
    (createParticlesFromImage part001Visible 10 10 (fun _ _ => ⟨0, 0, 0, 255⟩)
        500 (fun _ _ => (0, 0, 0))).targetPositions
      = (List.range 10).flatMap (fun y => (List.range 10).flatMap (fun x =>
          [((x : ℚ) - 5) * 2, -(((y : ℚ) - 5)) * 2, 0])) ∧
    (createParticlesFromImage part001Visible 10 10 (fun _ _ => ⟨0, 0, 0, 255⟩)
        500 (fun _ _ => (0, 0, 0))).targetPositions.length = 3 * 100 := by
  have hq : qualifyingPixels part001Visible 10 10 (fun _ _ => ⟨0, 0, 0, 255⟩)
      = scanCoords 10 10 := by decide
  have htr : ∀ x y : ℕ, targetTriple 10 10 (x, y)
      = [((x : ℚ) - 5) * 2, -(((y : ℚ) - 5)) * 2, 0] := by
    intro x y
    simp only [targetTriple]
    norm_num
  constructor
  · simp only [createParticlesFromImage]
    rw [hq, scanCoords_flatMap]
    refine List.flatMap_congr ?_
    intro y _
    refine List.flatMap_congr ?_
    intro x _
    exact htr x y
  · simp only [createParticlesFromImage]
    rw [flatMap_length_three _ _ (fun c => by simp [targetTriple]), hq]
    decide

/-- Claim C7: the qualifying predicate `alpha > t && colorPred` is antitone
in the alpha threshold `t`: for `t1 ≤ t2`, every pixel qualifying at `t2`
qualifies at `t1`, hence the qualifying pixels of any image at `t2` are a
subset of those at `t1` and raising the cutoff never increases their count. -/
theorem visibleAt_antitone (colorPred : Pixel → Bool) (t1 t2 : ℕ)
    (h : t1 ≤ t2) (width height : ℕ) (px : ℕ → ℕ → Pixel) :
    (∀ p : Pixel, visibleAt colorPred t2 p = true → visibleAt colorPred t1 p = true) ∧
    qualifyingPixels (visibleAt colorPred t2) width height px
      ⊆ qualifyingPixels (visibleAt colorPred t1) width height px ∧
    (qualifyingPixels (visibleAt colorPred t2) width height px).length
      ≤ (qualifyingPixels (visibleAt colorPred t1) width height px).length := by
  have hp : ∀ p : Pixel, visibleAt colorPred t2 p = true →
      visibleAt colorPred t1 p = true := by
    intro p hvis
    simp only [visibleAt, Bool.and_eq_true, decide_eq_true_eq] at hvis ⊢
    exact ⟨lt_of_le_of_lt h hvis.1, hvis.2⟩
  have hsub : List.Sublist
      ((scanCoords width height).filter
        (fun c => visibleAt colorPred t2 (px c.1 c.2)))
      ((scanCoords width height).filter
        (fun c => visibleAt colorPred t1 (px c.1 c.2))) :=
    List.monotone_filter_right _ (fun c hc => hp _ hc)
  exact ⟨hp, hsub.subset, hsub.length_le⟩

/-- Witness for C7 at a concrete instance: thresholds 50 ≤ 100 with the
not-white color predicate on a 1×1 image whose pixel has alpha 80 (it
qualifies at threshold 50 but not at 100). -/
theorem visibleAt_antitone_witness :
    50 ≤ 100 ∧
    ((∀ p : Pixel, visibleAt isNotWhite 100 p = true → visibleAt isNotWhite 50 p = true) ∧
     qualifyingPixels (visibleAt isNotWhite 100) 1 1 (fun _ _ => ⟨0, 0, 0, 80⟩)
       ⊆ qualifyingPixels (visibleAt isNotWhite 50) 1 1 (fun _ _ => ⟨0, 0, 0, 80⟩) ∧
     (qualifyingPixels (visibleAt isNotWhite 100) 1 1 (fun _ _ => ⟨0, 0, 0, 80⟩)).length
       ≤ (qualifyingPixels (visibleAt isNotWhite 50) 1 1 (fun _ _ => ⟨0, 0, 0, 80⟩)).length) :=
  ⟨by decide, visibleAt_antitone isNotWhite 50 100 (by decide) 1 1 _⟩

/-- The mutable state touched by one frame of the position-blend `animate`
loop: the three parallel coordinate arrays of the particle mesh, the mesh's
`rotation.y`, and a counter of `renderer.render` calls issued so far. -/
structure BlendState where
  positions : List ℚ
  initialPositions : List ℚ
  targetPositions : List ℚ
  rotY : ℚ
  renders : ℕ
deriving DecidableEq, Repr

/-- The position-update loop of `animate`:
`for (let i = 0; i < positions.length; i++) positions[i] = initial[i] + (target[i] - initial[i]) * handProgress;`
(indexing past the end of `initial`/`target` is modelled by `getD _ 0`;
with equal-length arrays, as the buffer invariant guarantees, the default
is never used). -/
def animatePositions (n : ℕ) (initial target : List ℚ) (progress : ℚ) : List ℚ :=
  (List.range n).map (fun i =>
    initial.getD i 0 + (target.getD i 0 - initial.getD i 0) * progress)

/-- One frame of the position-blend `animate` loop: rotate the mesh by
`0.002`, rewrite every entry of `positions` by the interpolation formula,
and issue exactly one `renderer.render(scene, camera)` call. -/
def animateFrame (s : BlendState) (progress : ℚ) : BlendState :=
  { positions := animatePositions s.positions.length s.initialPositions
      s.targetPositions progress
    initialPositions := s.initialPositions
    targetPositions := s.targetPositions
    rotY := s.rotY + 2 / 1000
    renders := s.renders + 1 }

lemma map_range_getD (l : List ℚ) (d : ℚ) :
    (List.range l.length).map (fun i => l.getD i d) = l := by
  induction l with
  | nil => simp
  | cons a t ih =>
      rw [List.length_cons, List.range_succ_eq_map, List.map_cons, List.map_map]
      have hc : ((fun i => (a :: t).getD i d) ∘ Nat.succ) = fun i => t.getD i d := by
        funext i
        simp [List.getD_cons_succ]
      rw [hc, ih]
      simp

/-- Claim C1: for every particle buffer with equal-length arrays, one
position-blend animation frame sets coordinate `i` to
`initial[i] + (target[i] - initial[i]) * progress`; hence at `progress = 0`
the resulting current positions are exactly the initial positions, and at
`progress = 1` exactly the target positions. -/
theorem animateFrame_endpoints (s : BlendState)
    (h1 : s.positions.length = s.initialPositions.length)
    (h2 : s.positions.length = s.targetPositions.length) :
    (animateFrame s 0).positions = s.initialPositions ∧
    (animateFrame s 1).positions = s.targetPositions := by
  constructor
  · show animatePositions s.positions.length s.initialPositions
      s.targetPositions 0 = s.initialPositions
    unfold animatePositions
    have hf : (fun i => s.initialPositions.getD i 0 +
        (s.targetPositions.getD i 0 - s.initialPositions.getD i 0) * (0 : ℚ))
        = fun i => s.initialPositions.getD i 0 := by
      funext i
      ring
    rw [hf, h1, map_range_getD]
  · show animatePositions s.positions.length s.initialPositions
      s.targetPositions 1 = s.targetPositions
    unfold animatePositions
    have hf : (fun i => s.initialPositions.getD i 0 +
        (s.targetPositions.getD i 0 - s.initialPositions.getD i 0) * (1 : ℚ))
        = fun i => s.targetPositions.getD i 0 := by
      funext i
      ring
    rw [hf, h2, map_range_getD]

/-- Witness for C1 on a concrete three-particle buffer. -/
theorem animateFrame_endpoints_witness :
    (([(3 : ℚ), 1, 4] : List ℚ).length = ([(2 : ℚ), 7, 1] : List ℚ).length) ∧
    (([(3 : ℚ), 1, 4] : List ℚ).length = ([(8 : ℚ), 2, 8] : List ℚ).length) ∧
    ((animateFrame ⟨[3, 1, 4], [2, 7, 1], [8, 2, 8], 0, 0⟩ 0).positions
        = [(2 : ℚ), 7, 1] ∧
     (animateFrame ⟨[3, 1, 4], [2, 7, 1], [8, 2, 8], 0, 0⟩ 1).positions
        = [(8 : ℚ), 2, 8]) :=
  ⟨rfl, rfl, animateFrame_endpoints ⟨[3, 1, 4], [2, 7, 1], [8, 2, 8], 0, 0⟩ rfl rfl⟩

lemma mem_scanCoords {width height : ℕ} {c : ℕ × ℕ}
    (hc : c ∈ scanCoords width height) : c.1 < width ∧ c.2 < height := by
  simp only [scanCoords, List.mem_flatMap, List.mem_map, List.mem_range] at hc
  obtain ⟨y, hy, x, hx, rfl⟩ := hc
  exact ⟨hx, hy⟩

/-- Claim C9: when no pixel of the image qualifies, the converter still
builds a particle buffer whose three arrays are all empty, and an animation
frame over a state with an empty position array changes nothing except the
ambient rotation (`rotation.y += 0.002`) while still issuing exactly one
render call. -/
theorem empty_buffer_noop (vis : Pixel → Bool) (width height : ℕ)
    (px : ℕ → ℕ → Pixel) (dispersion : ℚ) (rand : ℕ → ℕ → ℚ × ℚ × ℚ)
    (h : ∀ x y, x < width → y < height → vis (px x y) = false)
    (s : BlendState) (hpos : s.positions = []) (progress : ℚ) :
    (createParticlesFromImage vis width height px dispersion rand).positions = [] ∧
    (createParticlesFromImage vis width height px dispersion rand).targetPositions = [] ∧
    (createParticlesFromImage vis width height px dispersion rand).initialPositions = [] ∧
    animateFrame s progress
      = { s with rotY := s.rotY + 2 / 1000, renders := s.renders + 1 } := by
  have hq : qualifyingPixels vis width height px = [] := by
    rw [qualifyingPixels, List.filter_eq_nil_iff]
    intro c hc
    obtain ⟨h1, h2⟩ := mem_scanCoords hc
    simp [h c.1 c.2 h1 h2]
  refine ⟨?_, ?_, ?_, ?_⟩
  · simp [createParticlesFromImage, hq]
  · simp [createParticlesFromImage, hq]
  · simp [createParticlesFromImage, hq]
  · obtain ⟨pos, ini, tgt, rot, ren⟩ := s
    simp only at hpos
    subst hpos
    rfl

/-- Witness for C9: a 1×1 fully transparent white image (its pixel fails the
alpha cutoff) and an empty particle state. -/
theorem empty_buffer_noop_witness :
    (∀ x y : ℕ, x < 1 → y < 1 →
      mainVisible ((fun _ _ => (⟨255, 255, 255, 0⟩ : Pixel)) x y) = false) ∧
    ((⟨[], [], [], 0, 0⟩ : BlendState).positions = []) ∧
    ((createParticlesFromImage mainVisible 1 1 (fun _ _ => ⟨255, 255, 255, 0⟩)
        500 (fun _ _ => (0, 0, 0))).positions = [] ∧
     (createParticlesFromImage mainVisible 1 1 (fun _ _ => ⟨255, 255, 255, 0⟩)
        500 (fun _ _ => (0, 0, 0))).targetPositions = [] ∧
     (createParticlesFromImage mainVisible 1 1 (fun _ _ => ⟨255, 255, 255, 0⟩)
        500 (fun _ _ => (0, 0, 0))).initialPositions = [] ∧
     animateFrame (⟨[], [], [], 0, 0⟩ : BlendState) (1/2)
       = { (⟨[], [], [], 0, 0⟩ : BlendState) with
             rotY := (⟨[], [], [], 0, 0⟩ : BlendState).rotY + 2 / 1000,
             renders := (⟨[], [], [], 0, 0⟩ : BlendState).renders + 1 }) :=
  ⟨fun _ _ _ _ => rfl, rfl,
    empty_buffer_noop mainVisible 1 1 (fun _ _ => ⟨255, 255, 255, 0⟩) 500
      (fun _ _ => (0, 0, 0)) (fun _ _ _ _ => rfl) ⟨[], [], [], 0, 0⟩ rfl (1/2)⟩

/-- `THREE.MathUtils.clamp(value, min, max)`, as consumed by the source:
`Math.max(min, Math.min(max, value))`. -/
noncomputable def clamp (value lo hi : ℝ) : ℝ := max lo (min hi value)

/-- `THREE.MathUtils.mapLinear(x, a1, a2, b1, b2)`, as consumed by the
source: `b1 + (x - a1) * (b2 - b1) / (a2 - a1)`. -/
noncomputable def mapLinear (x a1 a2 b1 b2 : ℝ) : ℝ :=
  b1 + (x - a1) * (b2 - b1) / (a2 - a1)

/-- One hand landmark returned by the detection model: a normalized 2D
image-space point. -/
structure Landmark where
  x : ℝ
  y : ℝ

/-- The fingertip distance computed in both `hands.onResults` callbacks:
`Math.sqrt(pow(lm[4].x - lm[8].x, 2) + pow(lm[4].y - lm[8].y, 2))`,
between the thumb tip (landmark 4) and the index tip (landmark 8). -/
noncomputable def fingertipDistance (lms : List Landmark) : ℝ :=
  Real.sqrt (((lms.getD 4 ⟨0, 0⟩).x - (lms.getD 8 ⟨0, 0⟩).x) ^ 2 +
    ((lms.getD 4 ⟨0, 0⟩).y - (lms.getD 8 ⟨0, 0⟩).y) ^ 2)

/-- The exponential-moving-average step of the blend variants:
`handProgress += (targetVal - handProgress) * 0.1`. -/
noncomputable def emaBlendStep (p t : ℝ) : ℝ := p + (t - p) * 0.1

/-- The exponential-moving-average step of the orbital variant's `animate`:
`currentZoomRef.current += (targetZoomRef.current - currentZoomRef.current) * 0.08`. -/
noncomputable def emaZoomStep (cz tz : ℝ) : ℝ := cz + (tz - cz) * 0.08

/-- The `hands.onResults` callback of the blend variants (`src/src/App.tsx`
and `src/unnamed/part_001`), acting on `handProgress`. A detection result is
`some landmarks` when a hand is present and `none` otherwise; on `none` the
callback body is skipped entirely and `handProgress` is left unchanged. -/
noncomputable def blendOnResults (handProgress : ℝ)
    (results : Option (List Landmark)) : ℝ :=
  match results with
  | some lms =>
      emaBlendStep handProgress
        (clamp (mapLinear (fingertipDistance lms) 0.05 0.2 1 0) 0 1)
  | none => handProgress

/-- The `hands.onResults` callback of the orbital variant
(`src/unnamed/part_000`), acting on `targetZoomRef`: with a hand present it
stores the clamped linear mapping of the fingertip distance; with no hand it
decays the stored value: `targetZoomRef.current = targetZoomRef.current * 0.95`. -/
noncomputable def orbitOnResults (targetZoom : ℝ)
    (results : Option (List Landmark)) : ℝ :=
  match results with
  | some lms => clamp (mapLinear (fingertipDistance lms) 0.03 0.2 0 1) 0 1
  | none => targetZoom * 0.95

/-- `handProgress` after a sequence of detection callbacks, starting from
its initial value `0`. -/
noncomputable def blendRun (evs : List (Option (List Landmark))) : ℝ :=
  evs.foldl blendOnResults 0

/-- An event touching the orbital variant's zoom state: either a detection
callback or an `animate` frame (the two fire on independent clocks). -/
inductive OrbitEvent where
  | det : Option (List Landmark) → OrbitEvent
  | frame : OrbitEvent

/-- One orbital-variant event acting on `(targetZoomRef, currentZoomRef)`:
a detection callback rewrites the target, an `animate` frame smooths the
current zoom toward it. -/
noncomputable def orbitStep (s : ℝ × ℝ) (e : OrbitEvent) : ℝ × ℝ :=
  match e with
  | OrbitEvent.det results => (orbitOnResults s.1 results, s.2)
  | OrbitEvent.frame => (s.1, emaZoomStep s.2 s.1)

/-- `(targetZoomRef, currentZoomRef)` after a sequence of interleaved
detection callbacks and animation frames, starting from `(0, 0)`. -/
noncomputable def orbitRun (evs : List OrbitEvent) : ℝ × ℝ :=
  evs.foldl orbitStep (0, 0)

lemma clamp01_nonneg (v : ℝ) : 0 ≤ clamp v 0 1 := le_max_left 0 _

lemma clamp01_le_one (v : ℝ) : clamp v 0 1 ≤ 1 :=
  max_le zero_le_one (min_le_left 1 v)

lemma emaBlendStep_mem {p t : ℝ} (hp0 : 0 ≤ p) (hp1 : p ≤ 1)
    (ht0 : 0 ≤ t) (ht1 : t ≤ 1) :
    0 ≤ emaBlendStep p t ∧ emaBlendStep p t ≤ 1 := by
  unfold emaBlendStep
  constructor <;> nlinarith

lemma emaZoomStep_mem {p t : ℝ} (hp0 : 0 ≤ p) (hp1 : p ≤ 1)
    (ht0 : 0 ≤ t) (ht1 : t ≤ 1) :
    0 ≤ emaZoomStep p t ∧ emaZoomStep p t ≤ 1 := by
  unfold emaZoomStep
  constructor <;> nlinarith

lemma blendOnResults_mem {p : ℝ} (hp0 : 0 ≤ p) (hp1 : p ≤ 1)
    (ev : Option (List Landmark)) :
    0 ≤ blendOnResults p ev ∧ blendOnResults p ev ≤ 1 := by
  cases ev with
  | none => exact ⟨hp0, hp1⟩
  | some lms =>
      exact emaBlendStep_mem hp0 hp1 (clamp01_nonneg _) (clamp01_le_one _)

lemma orbitOnResults_mem {tz : ℝ} (h0 : 0 ≤ tz) (h1 : tz ≤ 1)
    (ev : Option (List Landmark)) :
    0 ≤ orbitOnResults tz ev ∧ orbitOnResults tz ev ≤ 1 := by
  cases ev with
  | none =>
      simp only [orbitOnResults]
      constructor <;> nlinarith
  | some lms => exact ⟨clamp01_nonneg _, clamp01_le_one _⟩

lemma foldl_blend_mem (evs : List (Option (List Landmark))) :
    ∀ p : ℝ, 0 ≤ p → p ≤ 1 →
      0 ≤ evs.foldl blendOnResults p ∧ evs.foldl blendOnResults p ≤ 1 := by
  induction evs with
  | nil => intro p h0 h1; exact ⟨h0, h1⟩
  | cons e t ih =>
      intro p h0 h1
      rw [List.foldl_cons]
      obtain ⟨a, b⟩ := blendOnResults_mem h0 h1 e
      exact ih _ a b

lemma foldl_orbit_mem (evs : List OrbitEvent) :
    ∀ s : ℝ × ℝ, 0 ≤ s.1 → s.1 ≤ 1 → 0 ≤ s.2 → s.2 ≤ 1 →
      0 ≤ (evs.foldl orbitStep s).1 ∧ (evs.foldl orbitStep s).1 ≤ 1 ∧
      0 ≤ (evs.foldl orbitStep s).2 ∧ (evs.foldl orbitStep s).2 ≤ 1 := by
  induction evs with
  | nil => intro s h1 h2 h3 h4; exact ⟨h1, h2, h3, h4⟩
  | cons e t ih =>
      intro s h1 h2 h3 h4
      rw [List.foldl_cons]
      cases e with
      | det results =>
          obtain ⟨a, b⟩ := orbitOnResults_mem h1 h2 results
          exact ih _ a b h3 h4
      | frame =>
          obtain ⟨a, b⟩ := emaZoomStep_mem h3 h4 h1 h2
          exact ih _ h1 h2 a b

/-- Claim C2: the smoothed gesture scalar stays in `[0, 1]` for every
sequence of detection results with arbitrary landmark coordinates: in the
blend variants `handProgress` (started at 0, moved by the clamped-target
EMA step) stays in `[0, 1]`, and in the orbital variant both
`targetZoomRef` and `currentZoomRef` (started at 0, updated by arbitrary
interleavings of detection callbacks and animation frames) stay in `[0, 1]`. -/
theorem progress_mem_unitInterval :
    (∀ evs : List (Option (List Landmark)),
      0 ≤ blendRun evs ∧ blendRun evs ≤ 1) ∧
    (∀ evs : List OrbitEvent,
      0 ≤ (orbitRun evs).1 ∧ (orbitRun evs).1 ≤ 1 ∧
      0 ≤ (orbitRun evs).2 ∧ (orbitRun evs).2 ≤ 1) := by
  constructor
  · intro evs
    exact foldl_blend_mem evs 0 le_rfl zero_le_one
  · intro evs
    exact foldl_orbit_mem evs (0, 0) le_rfl zero_le_one le_rfl zero_le_one

/-- Claim C10: each exponential-smoothing step is a contraction that never
overshoots: the distance to the target shrinks exactly by the factor
`1 - alpha` (`alpha = 0.1` in the blend variants, `0.08` in the orbital
variant) and the new value lies between the old value and the target, for
all real inputs. -/
theorem emaStep_contraction (p t : ℝ) :
    (|emaBlendStep p t - t| = (1 - 0.1) * |p - t| ∧
     min p t ≤ emaBlendStep p t ∧ emaBlendStep p t ≤ max p t) ∧
    (|emaZoomStep p t - t| = (1 - 0.08) * |p - t| ∧
     min p t ≤ emaZoomStep p t ∧ emaZoomStep p t ≤ max p t) := by
  have hb : emaBlendStep p t - t = (1 - 0.1) * (p - t) := by
    unfold emaBlendStep
    ring
  have hz : emaZoomStep p t - t = (1 - 0.08) * (p - t) := by
    unfold emaZoomStep
    ring
  constructor
  · refine ⟨?_, ?_, ?_⟩
    · rw [hb, abs_mul, abs_of_nonneg (by norm_num : (0 : ℝ) ≤ 1 - 0.1)]
    · rcases le_total p t with h | h
      · rw [min_eq_left h]
        unfold emaBlendStep
        nlinarith
      · rw [min_eq_right h]
        unfold emaBlendStep
        nlinarith
    · rcases le_total p t with h | h
      · rw [max_eq_right h]
        unfold emaBlendStep
        nlinarith
      · rw [max_eq_left h]
        unfold emaBlendStep
        nlinarith
  · refine ⟨?_, ?_, ?_⟩
    · rw [hz, abs_mul, abs_of_nonneg (by norm_num : (0 : ℝ) ≤ 1 - 0.08)]
    · rcases le_total p t with h | h
      · rw [min_eq_left h]
        unfold emaZoomStep
        nlinarith
      · rw [min_eq_right h]
        unfold emaZoomStep
        nlinarith
    · rcases le_total p t with h | h
      · rw [max_eq_right h]
        unfold emaZoomStep
        nlinarith
      · rw [max_eq_left h]
        unfold emaZoomStep
        nlinarith

/-- Counterexample to claim C4 as stated: the claim quantifies over the cited
gesture extractors of all variants, but in the blend variants
(`src/src/App.tsx`, `src/unnamed/part_001`) the `hands.onResults` callback has
no no-hand branch at all — a no-hand detection leaves the stored value `1`
unchanged instead of multiplying it by `0.95`. -/
theorem blend_noHand_holds_counterexample :
    blendOnResults 1 none = 1 ∧ blendOnResults 1 none ≠ 0.95 * 1 := by
  constructor
  · rfl
  · rw [show blendOnResults 1 none = 1 from rfl]
    norm_num

lemma foldl_orbit_noHand (n : ℕ) :
    ∀ x : ℝ, (List.replicate n (none : Option (List Landmark))).foldl
      orbitOnResults x = x * 0.95 ^ n := by
  induction n with
  | zero =>
      intro x
      simp
  | succ k ih =>
      intro x
      rw [List.replicate_succ, List.foldl_cons,
        show orbitOnResults x none = x * 0.95 from rfl, ih]
      ring

/-- Claim C4 as amended: only the orbital variant (`src/unnamed/part_000`)
decays `targetValue` on a no-hand detection, multiplying it by exactly
`0.95`; starting from `targetValue = 1.0`, after 50 consecutive no-hand
detection callbacks the stored value equals `0.95 ^ 50`, hence is below
`0.95 ^ 50 + epsilon` for every positive epsilon. The blend variants hold
the last value unchanged instead. -/
theorem orbit_noHand_decay (ε : ℝ) (hε : 0 < ε) :
    (List.replicate 50 (none : Option (List Landmark))).foldl orbitOnResults 1
      = 0.95 ^ 50 ∧
    (List.replicate 50 (none : Option (List Landmark))).foldl orbitOnResults 1
      < 0.95 ^ 50 + ε ∧
    blendOnResults 1 none = 1 := by
  have h := foldl_orbit_noHand 50 1
  rw [one_mul] at h
  exact ⟨h, by rw [h]; linarith, rfl⟩

/-- Witness for the amended C4 at `epsilon = 1/100`. -/
theorem orbit_noHand_decay_witness :
    (0 : ℝ) < 1/100 ∧
    ((List.replicate 50 (none : Option (List Landmark))).foldl orbitOnResults 1
        = 0.95 ^ 50 ∧
     (List.replicate 50 (none : Option (List Landmark))).foldl orbitOnResults 1
        < 0.95 ^ 50 + 1/100 ∧
     blendOnResults 1 none = 1) :=
  ⟨by norm_num, orbit_noHand_decay (1/100) (by norm_num)⟩

/-- The Keplerian angular speed assigned to ring particles in
`createSaturnSystem` (`src/unnamed/part_000`): `speed = 5.0 / Math.sqrt(r)`. -/
noncomputable def ringSpeed (r : ℝ) : ℝ := 5 / Real.sqrt r

/-- Claim C6: `ringSpeed` is strictly decreasing on positive radii — for
ring particles with radii `0 < r1 < r2`, the inner particle orbits strictly
faster: `ringSpeed r1 > ringSpeed r2` (Keplerian ordering). -/
theorem ringSpeed_strictAnti (r1 r2 : ℝ) (h0 : 0 < r1) (h12 : r1 < r2) :
    ringSpeed r2 < ringSpeed r1 := by
  have h1 : 0 < Real.sqrt r1 := Real.sqrt_pos.mpr h0
  have h2 : Real.sqrt r1 < Real.sqrt r2 := Real.sqrt_lt_sqrt (le_of_lt h0) h12
  exact div_lt_div_of_pos_left (by norm_num) h1 h2

/-- Witness for C6 at radii `1 < 4`. -/
theorem ringSpeed_strictAnti_witness :
    (0 : ℝ) < 1 ∧ (1 : ℝ) < 4 ∧ ringSpeed 4 < ringSpeed 1 :=
  ⟨by norm_num, by norm_num, ringSpeed_strictAnti 1 4 (by norm_num) (by norm_num)⟩

/-- The ring-particle orbital radius computed in `createSaturnSystem`:
`r = 25 + Math.random() * 40`, and if `r > 48 && r < 52` then with
probability 0.8 (`Math.random() > 0.2`) the particle is pushed out of the
gap band: `r += 5`. The two random draws are the unit samples `u` and `g`. -/
noncomputable def saturnRingRadius (u g : ℝ) : ℝ :=
  let r := 25 + u * 40
  if 48 < r ∧ r < 52 then (if 0.2 < g then r + 5 else r) else r

/-- The per-particle orbital radius of `createSaturnSystem`: particles with
index `i < particleCount * 0.3` form the solid body (`r = 0`, not used for
orbit evaluation), the rest form the ring. -/
noncomputable def saturnRadius (count i : ℕ) (u g : ℝ) : ℝ :=
  if (i : ℝ) < (count : ℝ) * 0.3 then 0 else saturnRingRadius u g

/-- The per-particle angular speed of `createSaturnSystem`: `speed = 0`
flags a solid-body particle as non-orbiting; ring particles get the
Keplerian `5.0 / Math.sqrt(r)`. -/
noncomputable def saturnSpeed (count i : ℕ) (u g : ℝ) : ℝ :=
  if (i : ℝ) < (count : ℝ) * 0.3 then 0 else ringSpeed (saturnRingRadius u g)

/-- Claim C8: with particle count 60000 the generator partitions particles
deterministically by index: every index `i < 18000 = 0.3 * 60000` is
solid-body class with `angularSpeed = 0`, and every other index is ring
class whose radius — also after the `+5` gap-band push applied inside
`(48, 52)` — lies in `[25, 65)`, with `angularSpeed = 5 / sqrt(radius)`,
for any unit random samples `u, g` with `0 ≤ u < 1`. -/
theorem saturn_partition (i : ℕ) (u g : ℝ) (hu0 : 0 ≤ u) (hu1 : u < 1) :
    (i < 18000 → saturnSpeed 60000 i u g = 0) ∧
    (18000 ≤ i →
      25 ≤ saturnRadius 60000 i u g ∧ saturnRadius 60000 i u g < 65 ∧
      saturnSpeed 60000 i u g = ringSpeed (saturnRadius 60000 i u g)) := by
  have hcond : ((i : ℝ) < ((60000 : ℕ) : ℝ) * 0.3) ↔ i < 18000 := by
    rw [show (((60000 : ℕ) : ℝ) * 0.3) = ((18000 : ℕ) : ℝ) by push_cast; norm_num]
    exact Nat.cast_lt
  constructor
  · intro h
    rw [saturnSpeed, if_pos (hcond.mpr h)]
  · intro h
    have hneg : ¬((i : ℝ) < ((60000 : ℕ) : ℝ) * 0.3) := by
      rw [hcond]
      omega
    have hrad : saturnRadius 60000 i u g = saturnRingRadius u g := by
      rw [saturnRadius, if_neg hneg]
    have hr : 25 ≤ saturnRingRadius u g ∧ saturnRingRadius u g < 65 := by
      simp only [saturnRingRadius]
      by_cases hband : 48 < 25 + u * 40 ∧ 25 + u * 40 < 52
      · rw [if_pos hband]
        by_cases hg : (0.2 : ℝ) < g
        · rw [if_pos hg]
          constructor <;> nlinarith [hband.1, hband.2]
        · rw [if_neg hg]
          constructor <;> nlinarith
      · rw [if_neg hband]
        constructor <;> nlinarith
    refine ⟨hrad ▸ hr.1, hrad ▸ hr.2, ?_⟩
    rw [saturnSpeed, if_neg hneg, hrad]

/-- Witness for C8 at ring index 20000 with unit samples `u = 1/2, g = 0`
(radius 45, outside the gap band). -/
theorem saturn_partition_witness :
    (0 : ℝ) ≤ 1/2 ∧ (1/2 : ℝ) < 1 ∧
    ((20000 < 18000 → saturnSpeed 60000 20000 (1/2) 0 = 0) ∧
     (18000 ≤ 20000 →
       25 ≤ saturnRadius 60000 20000 (1/2) 0 ∧
       saturnRadius 60000 20000 (1/2) 0 < 65 ∧
       saturnSpeed 60000 20000 (1/2) 0
         = ringSpeed (saturnRadius 60000 20000 (1/2) 0))) :=
  ⟨by norm_num, by norm_num,
    saturn_partition 20000 (1/2) 0 (by norm_num) (by norm_num)⟩
